import Mathlib

/-!
Shallow embedding of `backend/server.js` (Roxiler transaction dashboard
backend): the `transactions` table, the shared month validation, the five
query handlers (`/api/transactions`, `/api/statistics`, `/api/barchart`,
`/api/piechart`, `/api/combined`) and the startup seed loop, together with
theorems checking the specification's claims about them.

Modelling conventions:
* the MySQL table is a `List Txn` in row order; `LIMIT n OFFSET k` is
  `(·.drop k).take n` over that order;
* `price DECIMAL(10,2)` is fixed-point money, held here as a count of
  cents (`Int`), so `price BETWEEN a AND b` is `a*100 ≤ cents ≤ b*100`;
* SQL `LIKE` under the server's case-insensitive collation is the
  executable matcher `likeMatch` below (`%`, `_`, backslash escape);
* a handler's 400 response is `Except.error ApiError.invalidMonth`; the
  JSON payload of a 200 response is the `.ok` value.
-/

namespace Roxiler

/-- Decidable equality of handler results, so that concrete responses can
be computed inside proofs. -/
instance {ε α : Type} [DecidableEq ε] [DecidableEq α] : DecidableEq (Except ε α) :=
  fun x y =>
    match x, y with
    | Except.ok a, Except.ok b =>
      if h : a = b then isTrue (by rw [h])
      else isFalse (by intro hc; injection hc; exact h (by assumption))
    | Except.error a, Except.error b =>
      if h : a = b then isTrue (by rw [h])
      else isFalse (by intro hc; injection hc; exact h (by assumption))
    | Except.ok _, Except.error _ => isFalse (by intro hc; exact Except.noConfusion hc)
    | Except.error _, Except.ok _ => isFalse (by intro hc; exact Except.noConfusion hc)

/-- One row of the `transactions` table (CREATE TABLE, server.js lines
29-41).  `date_of_sale DATETIME` is split into its calendar components;
only the month component is ever queried.  `price` is in cents. -/
structure Txn where
  id : Nat
  title : String
  description : String
  priceCents : Int
  category : String
  image : String
  sold : Bool
  saleYear : Nat
  saleMonth : Nat
  saleDay : Nat
  deriving DecidableEq, Repr

/-- The fixed ordered month-name list (server.js lines 78-81). -/
def months : List String :=
  ["January", "February", "March", "April", "May", "June",
   "July", "August", "September", "October", "November", "December"]

/-- The only client-input error the query handlers produce: the 400
`{ error: 'Invalid month' }` response. -/
inductive ApiError where
  | invalidMonth
  deriving DecidableEq, Repr

/-- The month validation shared verbatim by all five query handlers:
`if (!month || !months.includes(month)) return 400` followed by
`monthNum = months.indexOf(month) + 1`.  The query parameter is `none`
when absent; an absent or empty parameter is falsy in the source, and
the `includes` test is a case-sensitive exact string match. -/
def checkMonth (month : Option String) : Except ApiError Nat :=
  match month with
  | none => Except.error ApiError.invalidMonth
  | some m =>
    if m = "" then Except.error ApiError.invalidMonth
    else if months.contains m then Except.ok (months.indexOf m + 1)
    else Except.error ApiError.invalidMonth

/-- `WHERE MONTH(date_of_sale) = ?`: keep the rows whose calendar-month
component equals the 1-12 ordinal; the year and day take no part. -/
def monthRecords (store : List Txn) (monthNum : Nat) : List Txn :=
  store.filter (fun r => r.saleMonth == monthNum)

/-- Case folding for the server's case-insensitive collation (ASCII
letters fold; other characters compare as themselves). -/
def lchar (c : Char) : Char := c.toLower

/-- MySQL `LIKE` matching under a case-insensitive collation: `%` matches
any (possibly empty) run of characters (the pattern after it must match
some suffix of the subject), `_` matches exactly one character, a
backslash escapes the following pattern character (a trailing lone
backslash stands for itself), and any other pattern character matches
one subject character up to case.  The pattern must cover the whole
subject. -/
def likeMatch : List Char → List Char → Bool
  | [], s => s.isEmpty
  | p :: ps, s =>
    if p = '%' then
      s.tails.any (fun t => likeMatch ps t)
    else if p = '\\' then
      match ps, s with
      | q :: ps2, c :: s2 => lchar c == lchar q && likeMatch ps2 s2
      | _ :: _, [] => false
      | [], c :: s2 => c == '\\' && likeMatch [] s2
      | [], [] => false
    else if p = '_' then
      match s with
      | [] => false
      | _ :: s2 => likeMatch ps s2
    else
      match s with
      | [] => false
      | c :: s2 => lchar c == lchar p && likeMatch ps s2

/-- `CAST(price AS CHAR)` for a DECIMAL(10,2) value held in cents: an
optional sign, the integer part, a dot, and exactly two fraction
digits (e.g. `"100.50"`). -/
def priceString (cents : Int) : String :=
  let n := cents.natAbs
  let frac := n % 100
  (if cents < 0 then "-" else "") ++ toString (n / 100) ++ "." ++
    (if frac < 10 then "0" else "") ++ toString frac

/-- Truthiness of `search.trim()` in the handler's
`if (search.trim())`: the trimmed string is nonempty exactly when some
character of `search` is not whitespace.  Only this gate looks at the
trimmed string; the pattern built below uses `search` itself. -/
def searchActive (search : String) : Bool :=
  search.data.any (fun c => !c.isWhitespace)

/-- One disjunct `field LIKE ?` with the bound parameter
`'%' + search + '%'` (the untrimmed search string). -/
def likeField (search : String) (field : String) : Bool :=
  likeMatch ('%' :: (search.data ++ ['%'])) field.data

/-- The appended condition
`(title LIKE ? OR description LIKE ? OR CAST(price AS CHAR) LIKE ?)`. -/
def matchesSearch (search : String) (r : Txn) : Bool :=
  likeField search r.title || likeField search r.description ||
    likeField search (priceString r.priceCents)

/-- Spec-side reading of one search disjunct: `pat` occurs in `hay` as a
case-insensitive substring.  Stated independently of `likeMatch` so that
the search claims can compare the code's `LIKE` filter against it. -/
def containsCI (hay pat : String) : Bool :=
  decide ((pat.data.map lchar) <:+: (hay.data.map lchar))

/-- Search strings free of the three characters `LIKE` treats specially
(`%`, `_`, backslash); for exactly these the pattern `'%'+search+'%'`
is a plain substring test. -/
def noMeta (s : String) : Bool :=
  s.data.all (fun c => !(c == '%') && !(c == '_') && !(c == '\\'))

/-- The row set both the SELECT and the COUNT query of
`/api/transactions` range over: the month filter, with the search
disjunction appended only when `search.trim()` is truthy. -/
def filteredRecords (store : List Txn) (monthNum : Nat) (search : String) :
    List Txn :=
  if searchActive search then
    (monthRecords store monthNum).filter (matchesSearch search)
  else monthRecords store monthNum

/-- The JSON body of a 200 response from `/api/transactions`. -/
structure TxnPage where
  transactions : List Txn
  total : Nat
  page : Nat
  perPage : Nat
  totalPages : Nat
  deriving DecidableEq, Repr

/-- GET `/api/transactions` (server.js lines 124-174).  `page` defaults
to 1 when absent; `perPage` is `none` when the parameter is absent, in
which case no LIMIT clause is added and the response reports `page 1`,
`perPage = total`, `totalPages 1`.  With `perPage` present the SELECT
gets `LIMIT perPage OFFSET (page-1)*perPage` and
`totalPages = Math.ceil(total/perPage) || 1`; for `perPage ≥ 1` that
ceiling is `(total + perPage - 1) / perPage`, replaced by 1 when it is 0.
(The JS edge case of the truthy string `"0"` for `perPage`, which yields
an infinite `totalPages`, is outside the integer model; the theorems
below assume `perPage ≥ 1`.) -/
def listTransactions (store : List Txn) (month : Option String)
    (search : String) (page : Nat) (perPage : Option Nat) :
    Except ApiError TxnPage := do
  let monthNum ← checkMonth month
  let matching := filteredRecords store monthNum search
  let total := matching.length
  match perPage with
  | none =>
    pure { transactions := matching, total := total, page := 1,
           perPage := total, totalPages := 1 }
  | some pp =>
    let tp := (total + pp - 1) / pp
    pure { transactions := (matching.drop ((page - 1) * pp)).take pp,
           total := total, page := page, perPage := pp,
           totalPages := if tp = 0 then 1 else tp }

/-- The JSON body of a 200 response from `/api/statistics`. -/
structure Stats where
  totalSale : Int
  soldItems : Nat
  notSoldItems : Nat
  deriving DecidableEq, Repr

/-- GET `/api/statistics` (server.js lines 177-209): `SUM(price)` over the
month's sold rows — NULL when no row matches, and `parseFloat(...) || 0`
coerces that NULL to numeric 0 — and the two `COUNT(*)` queries over
`sold = TRUE` and `sold = FALSE`. -/
def statistics (store : List Txn) (month : Option String) :
    Except ApiError Stats := do
  let monthNum ← checkMonth month
  let rows := monthRecords store monthNum
  let soldRows := rows.filter (fun r => r.sold)
  let sumOpt : Option Int :=
    if soldRows.isEmpty then none else some (soldRows.map Txn.priceCents).sum
  pure { totalSale := sumOpt.getD 0,
         soldItems := soldRows.length,
         notSoldItems := (rows.filter (fun r => !r.sold)).length }

/-- The ten labels of the bar-chart CASE expression in its listed order
(for these particular strings the `ORDER BY _id` string order coincides
with this order, `'0-100'` first and `'901-above'` last). -/
def bucketLabels : List String :=
  ["0-100", "101-200", "201-300", "301-400", "401-500",
   "501-600", "601-700", "701-800", "801-900", "901-above"]

/-- The CASE expression on `price` (in cents): each
`WHEN price BETWEEN a AND b` arm is the inclusive test
`a*100 ≤ cents ≤ b*100`, and every price matched by no arm — above 900,
inside a fractional gap such as 100.01..100.99, or negative — takes the
ELSE label `'901-above'`. -/
def bucketLabel (cents : Int) : String :=
  if 0 ≤ cents ∧ cents ≤ 10000 then "0-100"
  else if 10100 ≤ cents ∧ cents ≤ 20000 then "101-200"
  else if 20100 ≤ cents ∧ cents ≤ 30000 then "201-300"
  else if 30100 ≤ cents ∧ cents ≤ 40000 then "301-400"
  else if 40100 ≤ cents ∧ cents ≤ 50000 then "401-500"
  else if 50100 ≤ cents ∧ cents ≤ 60000 then "501-600"
  else if 60100 ≤ cents ∧ cents ≤ 70000 then "601-700"
  else if 70100 ≤ cents ∧ cents ≤ 80000 then "701-800"
  else if 80100 ≤ cents ∧ cents ≤ 90000 then "801-900"
  else "901-above"

/-- GET `/api/barchart` (server.js lines 212-260): GROUP BY the CASE
label over the month's rows, ORDER BY the label string; labels with no
row form no group and so do not appear. -/
def barChart (store : List Txn) (month : Option String) :
    Except ApiError (List (String × Nat)) := do
  let monthNum ← checkMonth month
  let rows := monthRecords store monthNum
  pure ((bucketLabels.map
      (fun l => (l, rows.countP (fun r => bucketLabel r.priceCents == l)))).filter
    (fun p => p.2 != 0))

/-- GET `/api/piechart` (server.js lines 263-285):
`SELECT category, COUNT(*) ... GROUP BY category` — one pair per distinct
category value among the month's rows, in an order MySQL does not
specify (here: order of each category's last occurrence). -/
def pieChart (store : List Txn) (month : Option String) :
    Except ApiError (List (String × Nat)) := do
  let monthNum ← checkMonth month
  let rows := monthRecords store monthNum
  pure (((rows.map Txn.category).dedup).map
    (fun c => (c, rows.countP (fun r => r.category == c))))

/-- The JSON body of a 200 response from `/api/combined`. -/
structure CombinedResp where
  statistics : Stats
  barchart : List (String × Nat)
  piechart : List (String × Nat)
  deriving DecidableEq, Repr

/-- GET `/api/combined` (server.js lines 289-312): after the local month
check, the three component results are fetched with `axios.get` from the
hard-coded deployment `https://roxiler-backend-kpxn.onrender.com`, i.e.
evaluated against that deployment's store (`remoteStore`), not against
the store of the process answering the request.  The remote handlers
re-run the month check on the forwarded month string. -/
def combined (remoteStore : List Txn) (month : Option String) :
    Except ApiError CombinedResp := do
  let _ ← checkMonth month
  let st ← statistics remoteStore month
  let bc ← barChart remoteStore month
  let pc ← pieChart remoteStore month
  pure { statistics := st, barchart := bc, piechart := pc }

/-- The outcome of the `axios.get` of the remote seed dataset: the parsed
record list, or a thrown fetch error. -/
inductive FetchResult where
  | ok (items : List Txn)
  | fail (message : String)
  deriving Repr

/-- The row-at-a-time seed INSERT loop (server.js lines 55-66).
`id INT PRIMARY KEY` makes an insert whose id already exists throw
`ER_DUP_ENTRY`, which aborts the loop; rows inserted before the failing
row stay (no transaction wraps the loop).  Returns the resulting table
and the error, if one occurred. -/
def insertAll (store : List Txn) (items : List Txn) : List Txn × Option String :=
  match items with
  | [] => (store, none)
  | i :: rest =>
    if store.any (fun r => r.id == i.id) then (store, some "ER_DUP_ENTRY")
    else insertAll (store ++ [i]) rest

/-- The startup IIFE (server.js lines 24-76): when `COUNT(*)` is 0, fetch
the dataset and run the insert loop.  The whole body sits in a try/catch
whose handler only logs, so the bootstrap always completes (startup is
never aborted) and a mid-loop insert failure leaves whatever the loop
had inserted before it. -/
def bootstrapIfEmpty (store : List Txn) (fetched : FetchResult) : List Txn :=
  if store.length = 0 then
    match fetched with
    | FetchResult.fail _ => store
    | FetchResult.ok items => (insertAll store items).1
  else store

/-! ### Concrete sample data used to instantiate the theorems -/

/-- Build a sample row (image fixed, day fixed: neither is ever queried). -/
def mkTxn (i : Nat) (t d : String) (pc : Int) (cat : String) (s : Bool)
    (y mo : Nat) : Txn :=
  { id := i, title := t, description := d, priceCents := pc, category := cat,
    image := "img", sold := s, saleYear := y, saleMonth := mo, saleDay := 7 }

/-- A sold March 2022 row at price 50.00. -/
def marchSold : Txn := mkTxn 1 "Shirt" "Nice blue shirt" 5000 "A" true 2022 3

/-- An unsold March 2023 row at price 150.00 (same calendar month as
`marchSold`, different year). -/
def marchUnsold : Txn := mkTxn 2 "Pants" "Red pants" 15000 "B" false 2023 3

/-- A March row priced 100.50, inside the fractional gap between the
`[0,100]` and `[101,200]` buckets. -/
def gapPriced : Txn := mkTxn 3 "Mug" "Plain mug" 10050 "C" true 2022 3

/-- A seed batch item, and a second item reusing its primary key. -/
def seedItem : Txn := mkTxn 7 "Lamp" "Desk lamp" 2000 "D" false 2021 5

/-- Duplicate of `seedItem`'s id with different payload. -/
def seedItemDup : Txn := mkTxn 7 "Lamp2" "Other lamp" 2100 "D" true 2021 6

/-- 25 March rows with ids 1..25, for the pagination example. -/
def pagedStore : List Txn :=
  (List.range 25).map (fun i => mkTxn (i + 1) "Item" "desc" 5000 "A" true 2022 3)

/-- A March row whose three searchable renderings are `"ab"`, `"cd"`,
`"50.00"` — none of which contains an underscore. -/
def plainRow : Txn := mkTxn 4 "ab" "cd" 5000 "E" true 2022 3

/-- A March row whose title contains `" x"` (with the leading space). -/
def spacedTitle : Txn := mkTxn 5 "a x b" "words" 5000 "F" true 2022 3

/-- A March row whose title contains `"x"` but not `" x"`. -/
def unspacedTitle : Txn := mkTxn 6 "axb" "words" 5000 "F" true 2022 3

/-! ### Reduction of the shared month check -/

theorem checkMonth_ok (m : String) (hm : m ∈ months) :
    checkMonth (some m) = Except.ok (months.indexOf m + 1) := by
  have hne : m ≠ "" := by
    intro he
    rw [he] at hm
    exact absurd hm (by decide)
  have hc : months.contains m = true := List.elem_eq_true_of_mem hm
  simp [checkMonth, hne, hc, hm]

theorem checkMonth_invalid (month : Option String)
    (h : ∀ m ∈ months, month ≠ some m) :
    checkMonth month = Except.error ApiError.invalidMonth := by
  cases month with
  | none => rfl
  | some m =>
    have hm : m ∉ months := fun hmem => h m hmem rfl
    have hc : months.contains m = false := by
      cases hcc : months.contains m
      · rfl
      · exact absurd (List.mem_of_elem_eq_true hcc) hm
    by_cases he : m = "" <;> simp [checkMonth, he, hc, hm]

/-! ### Valid-month reductions of the five handlers -/

theorem listTransactions_valid_none (store : List Txn) (m : String)
    (search : String) (page : Nat) (hm : m ∈ months) :
    listTransactions store (some m) search page none = Except.ok
      { transactions := filteredRecords store (months.indexOf m + 1) search,
        total := (filteredRecords store (months.indexOf m + 1) search).length,
        page := 1,
        perPage := (filteredRecords store (months.indexOf m + 1) search).length,
        totalPages := 1 } := by
  simp [listTransactions, checkMonth_ok m hm]

theorem listTransactions_valid_some (store : List Txn) (m : String)
    (search : String) (page pp : Nat) (hm : m ∈ months) :
    listTransactions store (some m) search page (some pp) = Except.ok
      { transactions :=
          ((filteredRecords store (months.indexOf m + 1) search).drop
            ((page - 1) * pp)).take pp,
        total := (filteredRecords store (months.indexOf m + 1) search).length,
        page := page,
        perPage := pp,
        totalPages :=
          if ((filteredRecords store (months.indexOf m + 1) search).length + pp - 1) / pp = 0
          then 1
          else ((filteredRecords store (months.indexOf m + 1) search).length + pp - 1) / pp } := by
  simp [listTransactions, checkMonth_ok m hm]

theorem statistics_valid (store : List Txn) (m : String) (hm : m ∈ months) :
    statistics store (some m) = Except.ok
      { totalSale :=
          (if ((monthRecords store (months.indexOf m + 1)).filter (fun r => r.sold)).isEmpty
           then (none : Option Int)
           else some ((((monthRecords store (months.indexOf m + 1)).filter
              (fun r => r.sold)).map Txn.priceCents).sum)).getD 0,
        soldItems :=
          ((monthRecords store (months.indexOf m + 1)).filter (fun r => r.sold)).length,
        notSoldItems :=
          ((monthRecords store (months.indexOf m + 1)).filter (fun r => !r.sold)).length } := by
  simp [statistics, checkMonth_ok m hm]

theorem barChart_valid (store : List Txn) (m : String) (hm : m ∈ months) :
    barChart store (some m) = Except.ok
      ((bucketLabels.map (fun l => (l, (monthRecords store (months.indexOf m + 1)).countP
          (fun r => bucketLabel r.priceCents == l)))).filter (fun p => p.2 != 0)) := by
  simp [barChart, checkMonth_ok m hm]

theorem pieChart_valid (store : List Txn) (m : String) (hm : m ∈ months) :
    pieChart store (some m) = Except.ok
      ((((monthRecords store (months.indexOf m + 1)).map Txn.category).dedup).map
        (fun c => (c, (monthRecords store (months.indexOf m + 1)).countP
          (fun r => r.category == c)))) := by
  simp [pieChart, checkMonth_ok m hm]

/-! ### C3 — invalid or missing month is rejected by all five operations -/

/-- C3: when the month parameter is absent or is not a case-sensitive exact
match of one of the twelve calendar month names, every one of the five
query operations returns the invalid-month (400) error, and it does so
for every store whatsoever — the store is never consulted. -/
theorem c3_invalid_month_rejected (store : List Txn) (month : Option String)
    (search : String) (page : Nat) (perPage : Option Nat)
    (h : ∀ m ∈ months, month ≠ some m) :
    listTransactions store month search page perPage = Except.error ApiError.invalidMonth ∧
    statistics store month = Except.error ApiError.invalidMonth ∧
    barChart store month = Except.error ApiError.invalidMonth ∧
    pieChart store month = Except.error ApiError.invalidMonth ∧
    combined store month = Except.error ApiError.invalidMonth := by
  have hcm := checkMonth_invalid month h
  exact ⟨by simp [listTransactions, hcm, Bind.bind, Except.bind],
    by simp [statistics, hcm], by simp [barChart, hcm], by simp [pieChart, hcm],
    by simp [combined, hcm, Bind.bind, Except.bind]⟩

/-- Witness for C3 at the lowercase month string `"march"` (not an exact
case-sensitive match) with a nonempty store. -/
theorem c3_invalid_month_rejected_witness :
    (∀ m ∈ months, (some "march" : Option String) ≠ some m) ∧
    (listTransactions [marchSold] (some "march") "" 1 none = Except.error ApiError.invalidMonth ∧
     statistics [marchSold] (some "march") = Except.error ApiError.invalidMonth ∧
     barChart [marchSold] (some "march") = Except.error ApiError.invalidMonth ∧
     pieChart [marchSold] (some "march") = Except.error ApiError.invalidMonth ∧
     combined [marchSold] (some "march") = Except.error ApiError.invalidMonth) :=
  ⟨by decide, c3_invalid_month_rejected [marchSold] (some "march") "" 1 none (by decide)⟩

/-! ### C5 — statistics: sum over sold rows, counts partition the month -/

/-- C5: for a valid month, the statistics response carries as `totalSale`
the sum of `price` over the month's sold rows (numerically 0 when there
are none, by the NULL-sum coercion), and `soldItems + notSoldItems`
equals the month's total row count (the two counts partition the month's
rows by the `sold` flag). -/
theorem c5_statistics_sum_partition (store : List Txn) (m : String)
    (hm : m ∈ months) :
    ∃ st, statistics store (some m) = Except.ok st ∧
      st.totalSale = (((monthRecords store (months.indexOf m + 1)).filter
        (fun r => r.sold)).map Txn.priceCents).sum ∧
      st.soldItems + st.notSoldItems = (monthRecords store (months.indexOf m + 1)).length := by
  refine ⟨_, statistics_valid store m hm, ?_, ?_⟩
  · show (if ((monthRecords store (months.indexOf m + 1)).filter (fun r => r.sold)).isEmpty
        then (none : Option Int)
        else some ((((monthRecords store (months.indexOf m + 1)).filter
          (fun r => r.sold)).map Txn.priceCents).sum)).getD 0 = _
    cases hE : ((monthRecords store (months.indexOf m + 1)).filter (fun r => r.sold)).isEmpty with
    | true => simp [List.isEmpty_iff.mp hE]
    | false => simp [hE]
  · show ((monthRecords store (months.indexOf m + 1)).filter (fun r => r.sold)).length
        + ((monthRecords store (months.indexOf m + 1)).filter (fun r => !r.sold)).length = _
    simpa using
      (List.length_eq_length_filter_add
        (l := monthRecords store (months.indexOf m + 1)) (fun r => r.sold)).symm

/-- Witness for C5 on a March store holding one sold and one unsold row. -/
theorem c5_statistics_sum_partition_witness :
    "March" ∈ months ∧
    (∃ st, statistics [marchSold, marchUnsold] (some "March") = Except.ok st ∧
      st.totalSale = (((monthRecords [marchSold, marchUnsold] (months.indexOf "March" + 1)).filter
        (fun r => r.sold)).map Txn.priceCents).sum ∧
      st.soldItems + st.notSoldItems =
        (monthRecords [marchSold, marchUnsold] (months.indexOf "March" + 1)).length) :=
  ⟨by decide, c5_statistics_sum_partition [marchSold, marchUnsold] "March" (by decide)⟩

/-! ### C6 — pagination -/

/-- C6: for a valid month, omitting `perPage` returns every matching row,
reporting page 1, `perPage` equal to the total and one page in all; with
`perPage` given (≥ 1) and a 1-indexed `page`, the returned rows are the
`perPage`-sized slice at offset `(page-1)*perPage`, and `totalPages` is
the ceiling of total / perPage, floored to at least 1. -/
theorem c6_pagination (store : List Txn) (m : String) (search : String)
    (page pp : Nat) (hm : m ∈ months) (hpage : 1 ≤ page) (hpp : 1 ≤ pp) :
    listTransactions store (some m) search page none = Except.ok
      { transactions := filteredRecords store (months.indexOf m + 1) search,
        total := (filteredRecords store (months.indexOf m + 1) search).length,
        page := 1,
        perPage := (filteredRecords store (months.indexOf m + 1) search).length,
        totalPages := 1 } ∧
    listTransactions store (some m) search page (some pp) = Except.ok
      { transactions := ((filteredRecords store (months.indexOf m + 1) search).drop
          ((page - 1) * pp)).take pp,
        total := (filteredRecords store (months.indexOf m + 1) search).length,
        page := page,
        perPage := pp,
        totalPages :=
          max 1 (((filteredRecords store (months.indexOf m + 1) search).length + pp - 1) / pp) } := by
  refine ⟨listTransactions_valid_none store m search page hm, ?_⟩
  rw [listTransactions_valid_some store m search page pp hm]
  have hmax : ∀ t : Nat, (if t = 0 then 1 else t) = max 1 t := by
    intro t
    by_cases ht : t = 0
    · simp [ht]
    · simp [ht]; omega
  rw [hmax]

/-- Witness for C6: the spec's own example — 25 matching March rows,
`perPage = 10`, `page = 2` — returns rows 11-20 and `totalPages = 3`. -/
theorem c6_pagination_witness :
    (1 : Nat) ≤ 2 ∧ (1 : Nat) ≤ 10 ∧ "March" ∈ months ∧
    listTransactions pagedStore (some "March") "" 2 (some 10) = Except.ok
      { transactions := (pagedStore.drop 10).take 10, total := 25, page := 2,
        perPage := 10, totalPages := 3 } := by
  refine ⟨by decide, by decide, by decide, ?_⟩
  rw [(c6_pagination pagedStore "March" "" 2 10 (by decide) (by decide) (by decide)).2]
  decide

/-! ### C7 — only the calendar month of dateOfSale is filtered on -/

/-- C7: for a valid month, the listed transactions are exactly the stored
rows whose sale date has that calendar month as its month component —
the filter never constrains the year (or the day), so rows from
different years sharing a month are all included. -/
theorem c7_month_filter_ignores_year (store : List Txn) (m : String)
    (hm : m ∈ months) :
    ∃ res, listTransactions store (some m) "" 1 none = Except.ok res ∧
      res.transactions = store.filter (fun r => r.saleMonth == months.indexOf m + 1) ∧
      ∀ r, r ∈ res.transactions ↔ r ∈ store ∧ r.saleMonth = months.indexOf m + 1 := by
  have hfe : filteredRecords store (months.indexOf m + 1) "" =
      store.filter (fun r => r.saleMonth == months.indexOf m + 1) := by
    have hsa : searchActive "" = false := rfl
    simp [filteredRecords, hsa, monthRecords]
  refine ⟨_, listTransactions_valid_none store m "" 1 hm, hfe, ?_⟩
  intro r
  show r ∈ filteredRecords store (months.indexOf m + 1) "" ↔ _
  rw [hfe]
  simp [List.mem_filter]

/-- Witness for C7 on a store holding March rows from 2022 and 2023: both
belong to the March listing. -/
theorem c7_month_filter_ignores_year_witness :
    "March" ∈ months ∧
    (∃ res, listTransactions [marchSold, marchUnsold] (some "March") "" 1 none = Except.ok res ∧
      res.transactions =
        [marchSold, marchUnsold].filter (fun r => r.saleMonth == months.indexOf "March" + 1) ∧
      ∀ r, r ∈ res.transactions ↔
        r ∈ [marchSold, marchUnsold] ∧ r.saleMonth = months.indexOf "March" + 1) :=
  ⟨by decide, c7_month_filter_ignores_year [marchSold, marchUnsold] "March" (by decide)⟩

/-! ### Counting helpers shared by the grouping claims -/

theorem sum_map_add_nat {α : Type} (f g : α → Nat) (l : List α) :
    (l.map (fun x => f x + g x)).sum = (l.map f).sum + (l.map g).sum := by
  induction l with
  | nil => simp
  | cons a l ih => simp [ih]; omega

theorem sum_if_eq_count (b : String) (labels : List String) :
    (labels.map (fun l => if b = l then (1 : Nat) else 0)).sum = labels.count b := by
  induction labels with
  | nil => simp
  | cons a ls ih =>
    rw [List.map_cons, List.sum_cons, ih, List.count_cons]
    by_cases hab : a = b
    · simp [hab, Nat.add_comm]
    · have hba : ¬b = a := fun h => hab h.symm
      simp [hab, hba]

theorem countP_label_sum {g : Txn → String} (labels : List String) (rows : List Txn)
    (hn : labels.Nodup) (hg : ∀ r ∈ rows, g r ∈ labels) :
    (labels.map (fun l => rows.countP (fun x => g x == l))).sum = rows.length := by
  induction rows with
  | nil => simp [List.countP_nil]
  | cons r rows ih =>
    have hgr : g r ∈ labels := hg r (by simp)
    have hrest : ∀ x ∈ rows, g x ∈ labels := fun x hx => hg x (by simp [hx])
    have hstep : (labels.map (fun l => (r :: rows).countP (fun x => g x == l)))
        = labels.map (fun l => rows.countP (fun x => g x == l) + if g r = l then 1 else 0) := by
      apply List.map_congr_left
      intro l _
      rw [List.countP_cons]
      simp
    rw [hstep, sum_map_add_nat, ih hrest, sum_if_eq_count,
      List.count_eq_one_of_mem hn hgr, List.length_cons]

theorem sum_snd_filter_nonzero {α : Type} (l : List (α × Nat)) :
    ((l.filter (fun p => p.2 != 0)).map Prod.snd).sum = (l.map Prod.snd).sum := by
  induction l with
  | nil => rfl
  | cons a l ih =>
    by_cases ha : a.2 = 0
    · simp [List.filter_cons, ha, ih]
    · simp [List.filter_cons, ha, ih]

theorem bucketLabel_mem (c : Int) : bucketLabel c ∈ bucketLabels := by
  unfold bucketLabel
  split_ifs <;> decide

theorem bucketLabels_nodup : bucketLabels.Nodup := by decide

/-! ### C9 — pieChart groups by category -/

/-- C9: for a valid month, the pie-chart output has pairwise-distinct
labels, its labels are exactly the categories occurring among the
month's rows, each pair's count is the number of the month's rows in
that category, and the counts sum to the month's row count. -/
theorem c9_piechart_groups (store : List Txn) (m : String) (hm : m ∈ months) :
    ∃ out, pieChart store (some m) = Except.ok out ∧
      (out.map Prod.fst).Nodup ∧
      (∀ c, c ∈ out.map Prod.fst ↔
        c ∈ (monthRecords store (months.indexOf m + 1)).map Txn.category) ∧
      (∀ p ∈ out, p.2 = ((monthRecords store (months.indexOf m + 1)).filter
        (fun r => r.category == p.1)).length) ∧
      (out.map Prod.snd).sum = (monthRecords store (months.indexOf m + 1)).length := by
  refine ⟨_, pieChart_valid store m hm, ?_, ?_, ?_, ?_⟩
  · rw [show ((((monthRecords store (months.indexOf m + 1)).map Txn.category).dedup).map
        (fun c => (c, (monthRecords store (months.indexOf m + 1)).countP
          (fun r => r.category == c)))).map Prod.fst
        = ((monthRecords store (months.indexOf m + 1)).map Txn.category).dedup by
        simp [List.map_map, Function.comp_def]]
    exact List.nodup_dedup _
  · intro c
    rw [show ((((monthRecords store (months.indexOf m + 1)).map Txn.category).dedup).map
        (fun c => (c, (monthRecords store (months.indexOf m + 1)).countP
          (fun r => r.category == c)))).map Prod.fst
        = ((monthRecords store (months.indexOf m + 1)).map Txn.category).dedup by
        simp [List.map_map, Function.comp_def]]
    exact List.mem_dedup
  · intro p hp
    obtain ⟨c, _, rfl⟩ := List.mem_map.mp hp
    exact List.countP_eq_length_filter _ _
  · rw [show ((((monthRecords store (months.indexOf m + 1)).map Txn.category).dedup).map
        (fun c => (c, (monthRecords store (months.indexOf m + 1)).countP
          (fun r => r.category == c)))).map Prod.snd
        = (((monthRecords store (months.indexOf m + 1)).map Txn.category).dedup).map
          (fun c => (monthRecords store (months.indexOf m + 1)).countP
            (fun r => r.category == c)) by
        simp [List.map_map, Function.comp_def]]
    have hcnt : ∀ c, (monthRecords store (months.indexOf m + 1)).countP
        (fun r => r.category == c)
        = ((monthRecords store (months.indexOf m + 1)).map Txn.category).count c := by
      intro c
      rw [List.count_eq_countP, List.countP_map]
      rfl
    rw [List.map_congr_left (fun c _ => hcnt c),
      List.sum_map_count_dedup_eq_length, List.length_map]

/-- Witness for C9 on a March store holding one row each of categories
`"A"` and `"B"`. -/
theorem c9_piechart_groups_witness :
    "March" ∈ months ∧
    (∃ out, pieChart [marchSold, marchUnsold] (some "March") = Except.ok out ∧
      (out.map Prod.fst).Nodup ∧
      (∀ c, c ∈ out.map Prod.fst ↔
        c ∈ (monthRecords [marchSold, marchUnsold] (months.indexOf "March" + 1)).map Txn.category) ∧
      (∀ p ∈ out, p.2 = ((monthRecords [marchSold, marchUnsold] (months.indexOf "March" + 1)).filter
        (fun r => r.category == p.1)).length) ∧
      (out.map Prod.snd).sum =
        (monthRecords [marchSold, marchUnsold] (months.indexOf "March" + 1)).length) :=
  ⟨by decide, c9_piechart_groups [marchSold, marchUnsold] "March" (by decide)⟩

/-! ### C2 — barChart price buckets -/

/-- C2 counterexample: the March row priced 100.50 falls in the fractional
gap between the `[0,100]` and `[101,200]` buckets, and the bar chart
counts it under `'901-above'` even though its price does not exceed 900
(10050 cents is between 0 and 90000 cents).  This refutes the claim that
a record is counted under `'901-above'` only if its price exceeds 900. -/
theorem c2_gap_price_mislabelled :
    barChart [gapPriced] (some "March") = Except.ok [("901-above", 1)] ∧
    (0 : Int) ≤ gapPriced.priceCents ∧ gapPriced.priceCents ≤ 90000 := by
  decide

/-- C2 (amended): for a valid month, every output pair carries one of the
ten fixed labels with the exact nonzero member count of its bucket,
every nonempty bucket appears, empty buckets are omitted, and the counts
sum to the month's row count; each row lands in exactly one bucket, the
nine bounded buckets being the inclusive ranges `[0,100]` .. `[801,900]`
and `'901-above'` collecting every other price — those exceeding 900
but also those in a fractional inter-bucket gap or negative. -/
theorem c2_barchart_buckets (store : List Txn) (m : String) (hm : m ∈ months) :
    ∃ out, barChart store (some m) = Except.ok out ∧
      (∀ p ∈ out, p.1 ∈ bucketLabels ∧ p.2 ≠ 0 ∧
        p.2 = ((monthRecords store (months.indexOf m + 1)).filter
          (fun r => bucketLabel r.priceCents == p.1)).length) ∧
      (∀ l ∈ bucketLabels,
        ((monthRecords store (months.indexOf m + 1)).filter
          (fun r => bucketLabel r.priceCents == l)).length ≠ 0 →
        (l, ((monthRecords store (months.indexOf m + 1)).filter
          (fun r => bucketLabel r.priceCents == l)).length) ∈ out) ∧
      (out.map Prod.snd).sum = (monthRecords store (months.indexOf m + 1)).length ∧
      (∀ c : Int, bucketLabel c = "901-above" ↔
        (c < 0 ∨ (10000 < c ∧ c < 10100) ∨ (20000 < c ∧ c < 20100) ∨
         (30000 < c ∧ c < 30100) ∨ (40000 < c ∧ c < 40100) ∨ (50000 < c ∧ c < 50100) ∨
         (60000 < c ∧ c < 60100) ∨ (70000 < c ∧ c < 70100) ∨ (80000 < c ∧ c < 80100) ∨
         90000 < c)) := by
  refine ⟨_, barChart_valid store m hm, ?_, ?_, ?_, ?_⟩
  · intro p hp
    obtain ⟨hpL, hpne⟩ := List.mem_filter.mp hp
    obtain ⟨l, hl, rfl⟩ := List.mem_map.mp hpL
    refine ⟨hl, ?_, List.countP_eq_length_filter _ _⟩
    simpa using hpne
  · intro l hl hne
    apply List.mem_filter.mpr
    rw [← List.countP_eq_length_filter]
    refine ⟨List.mem_map.mpr ⟨l, hl, by rw [List.countP_eq_length_filter]⟩, ?_⟩
    simpa [← List.countP_eq_length_filter] using hne
  · rw [sum_snd_filter_nonzero,
      show ((bucketLabels.map (fun l => (l, (monthRecords store (months.indexOf m + 1)).countP
          (fun r => bucketLabel r.priceCents == l)))).map Prod.snd)
        = bucketLabels.map (fun l => (monthRecords store (months.indexOf m + 1)).countP
          (fun r => bucketLabel r.priceCents == l)) by
        simp [List.map_map, Function.comp_def]]
    exact countP_label_sum bucketLabels _ bucketLabels_nodup (fun r _ => bucketLabel_mem _)
  · intro c
    unfold bucketLabel
    split_ifs with h1 h2 h3 h4 h5 h6 h7 h8 h9 <;>
      first
        | exact ⟨fun h => absurd h (by decide), fun hr => absurd hr (by omega)⟩
        | exact ⟨fun _ => by omega, fun _ => rfl⟩

/-- Witness for C2's amended statement on a March store with rows in the
`[0,100]` and `[101,200]` buckets. -/
theorem c2_barchart_buckets_witness :
    "March" ∈ months ∧
    (∃ out, barChart [marchSold, marchUnsold] (some "March") = Except.ok out ∧
      (∀ p ∈ out, p.1 ∈ bucketLabels ∧ p.2 ≠ 0 ∧
        p.2 = ((monthRecords [marchSold, marchUnsold] (months.indexOf "March" + 1)).filter
          (fun r => bucketLabel r.priceCents == p.1)).length) ∧
      (∀ l ∈ bucketLabels,
        ((monthRecords [marchSold, marchUnsold] (months.indexOf "March" + 1)).filter
          (fun r => bucketLabel r.priceCents == l)).length ≠ 0 →
        (l, ((monthRecords [marchSold, marchUnsold] (months.indexOf "March" + 1)).filter
          (fun r => bucketLabel r.priceCents == l)).length) ∈ out) ∧
      (out.map Prod.snd).sum =
        (monthRecords [marchSold, marchUnsold] (months.indexOf "March" + 1)).length ∧
      (∀ c : Int, bucketLabel c = "901-above" ↔
        (c < 0 ∨ (10000 < c ∧ c < 10100) ∨ (20000 < c ∧ c < 20100) ∨
         (30000 < c ∧ c < 30100) ∨ (40000 < c ∧ c < 40100) ∨ (50000 < c ∧ c < 50100) ∨
         (60000 < c ∧ c < 60100) ∨ (70000 < c ∧ c < 70100) ∨ (80000 < c ∧ c < 80100) ∨
         90000 < c))) :=
  ⟨by decide, c2_barchart_buckets [marchSold, marchUnsold] "March" (by decide)⟩

/-! ### C1 — the combined endpoint -/

/-- C1 counterexample: the combined handler fetches its three components
from the hard-coded remote deployment, so a process whose own store is
empty while the deployment's store holds one March row answers
`combined("March")` with something other than the pointwise in-process
composition of its own three operations (whose results on the empty
store are also computed here). -/
theorem c1_remote_composition_differs :
    statistics [] (some "March") = Except.ok
      { totalSale := 0, soldItems := 0, notSoldItems := 0 } ∧
    barChart [] (some "March") = Except.ok [] ∧
    pieChart [] (some "March") = Except.ok [] ∧
    combined [marchUnsold] (some "March") ≠ Except.ok
      { statistics := { totalSale := 0, soldItems := 0, notSoldItems := 0 },
        barchart := [], piechart := [] } := by
  decide

/-- C1 (amended): for every valid month, `combined` returns — under the
envelope `{statistics, barchart, piechart}` — exactly the pointwise
combination of `statistics`, `barChart` and `pieChart` applied to the
store served by the remote deployment it contacts; so whenever that
deployment serves the same store as the answering process (the intended
self-referential setup), the output equals the direct in-process
composition of the three operations on that store. -/
theorem c1_combined_composes_remote (store : List Txn) (m : String)
    (hm : m ∈ months) :
    ∃ st bc pc,
      statistics store (some m) = Except.ok st ∧
      barChart store (some m) = Except.ok bc ∧
      pieChart store (some m) = Except.ok pc ∧
      combined store (some m) = Except.ok
        { statistics := st, barchart := bc, piechart := pc } := by
  refine ⟨_, _, _, statistics_valid store m hm, barChart_valid store m hm,
    pieChart_valid store m hm, ?_⟩
  simp [combined, checkMonth_ok m hm, statistics_valid store m hm,
    barChart_valid store m hm, pieChart_valid store m hm,
    Bind.bind, Except.bind, Functor.map, Except.map, Pure.pure, Except.pure]

/-- Witness for C1's amended statement on a two-row March store. -/
theorem c1_combined_composes_remote_witness :
    "March" ∈ months ∧
    (∃ st bc pc,
      statistics [marchSold, marchUnsold] (some "March") = Except.ok st ∧
      barChart [marchSold, marchUnsold] (some "March") = Except.ok bc ∧
      pieChart [marchSold, marchUnsold] (some "March") = Except.ok pc ∧
      combined [marchSold, marchUnsold] (some "March") = Except.ok
        { statistics := st, barchart := bc, piechart := pc }) :=
  ⟨by decide, c1_combined_composes_remote [marchSold, marchUnsold] "March" (by decide)⟩

/-! ### C4 — bootstrap failure handling -/

theorem insertAll_nodup (items : List Txn) : ∀ s : List Txn,
    ((s ++ items).map Txn.id).Nodup → insertAll s items = (s ++ items, none) := by
  induction items with
  | nil => intro s _; simp [insertAll]
  | cons i rest ih =>
    intro s h
    rw [List.map_append] at h
    have hdisj := (List.nodup_append.mp h).2.2
    have hni : i.id ∉ s.map Txn.id := by
      intro hmem
      exact hdisj hmem (by simp)
    have hany : s.any (fun r => r.id == i.id) = false := by
      cases hA : s.any (fun r => r.id == i.id)
      · rfl
      · obtain ⟨r, hr, hre⟩ := List.any_eq_true.mp hA
        exact absurd (List.mem_map.mpr ⟨r, hr, by simpa using hre⟩) hni
    have harr : (s ++ [i]) ++ rest = s ++ i :: rest := by
      simp
    have hih := ih (s ++ [i]) (by rw [harr, List.map_append]; exact h)
    rw [harr] at hih
    simp [insertAll, hany, hih]

theorem insertAll_dup (s : List Txn) (bad : Txn) (rest : List Txn)
    (h : bad.id ∈ s.map Txn.id) :
    insertAll s (bad :: rest) = (s, some "ER_DUP_ENTRY") := by
  have hany : s.any (fun r => r.id == bad.id) = true := by
    obtain ⟨r, hr, hre⟩ := List.mem_map.mp h
    exact List.any_eq_true.mpr ⟨r, hr, by simp [hre]⟩
  simp [insertAll, hany]

theorem insertAll_append (s : List Txn) (xs ys : List Txn) :
    insertAll s (xs ++ ys) =
      match insertAll s xs with
      | (s2, none) => insertAll s2 ys
      | (s2, some e) => (s2, some e) := by
  induction xs generalizing s with
  | nil => simp [insertAll]
  | cons x xs ih =>
    cases hA : s.any (fun r => r.id == x.id)
    · simp [insertAll, hA, ih]
    · simp [insertAll, hA]

/-- C4 counterexample: a seed batch whose second row reuses the first
row's primary key makes the row-at-a-time insert loop throw on the
second row; the catch only logs, and the bootstrap leaves the first row
behind — the store is NOT empty after this bulk-insert failure. -/
theorem c4_partial_seed_remains :
    (insertAll [] [seedItem, seedItemDup]).2 = some "ER_DUP_ENTRY" ∧
    bootstrapIfEmpty [] (FetchResult.ok [seedItem, seedItemDup]) = [seedItem] ∧
    bootstrapIfEmpty [] (FetchResult.ok [seedItem, seedItemDup]) ≠ [] := by
  decide

/-- C4 (amended): a bootstrap failure is logged and never fatal (the
bootstrap is a total function of the fetch outcome); a failed fetch
leaves the empty store empty; a bulk-insert failure aborts the loop and
leaves exactly the rows inserted before the failing one, so the store
may be nonempty. -/
theorem c4_bootstrap_failure_outcome (msg : String) (good : List Txn)
    (bad : Txn) (rest : List Txn) (hg : (good.map Txn.id).Nodup)
    (hb : bad.id ∈ good.map Txn.id) :
    bootstrapIfEmpty [] (FetchResult.fail msg) = [] ∧
    bootstrapIfEmpty [] (FetchResult.ok (good ++ bad :: rest)) = good := by
  refine ⟨rfl, ?_⟩
  show (insertAll [] (good ++ bad :: rest)).1 = good
  rw [insertAll_append, show insertAll [] good = (good, none) by
    simpa using insertAll_nodup good [] (by simpa using hg)]
  show (insertAll good (bad :: rest)).1 = good
  rw [insertAll_dup good bad rest hb]

/-- Witness for C4's amended statement: batch `[seedItem, seedItemDup]`
with a duplicated primary key, and a failed fetch. -/
theorem c4_bootstrap_failure_outcome_witness :
    ([seedItem].map Txn.id).Nodup ∧ seedItemDup.id ∈ [seedItem].map Txn.id ∧
    (bootstrapIfEmpty [] (FetchResult.fail "ECONNREFUSED") = [] ∧
     bootstrapIfEmpty [] (FetchResult.ok ([seedItem] ++ seedItemDup :: [])) = [seedItem]) :=
  ⟨by decide, by decide,
    c4_bootstrap_failure_outcome "ECONNREFUSED" [seedItem] seedItemDup []
      (by decide) (by decide)⟩

/-! ### The `LIKE '%search%'` filter as a substring test -/

theorem likeMatch_one_pct (s : List Char) : likeMatch ['%'] s = true := by
  rw [show likeMatch ['%'] s = s.tails.any (fun t => t.isEmpty) from by
    rw [likeMatch.eq_def]
    simp [likeMatch]]
  exact List.any_eq_true.mpr ⟨[], (List.mem_tails _ _).mpr List.nil_suffix, rfl⟩

theorem likeMatch_plain_cons (a : Char) (ps : List Char) (d : Char) (s : List Char)
    (h1 : a ≠ '%') (h2 : a ≠ '\\') (h3 : a ≠ '_') :
    likeMatch (a :: ps) (d :: s) = (lchar d == lchar a && likeMatch ps s) := by
  rw [likeMatch.eq_def]
  simp [h1, h2, h3]

theorem likeMatch_plain_nil (a : Char) (ps : List Char) (h1 : a ≠ '%') :
    likeMatch (a :: ps) [] = false := by
  rw [likeMatch.eq_def]
  by_cases h2 : a = '\\'
  · cases ps <;> simp [h1, h2]
  · by_cases h3 : a = '_' <;> simp [h1, h2, h3]

theorem likeMatch_plain_pct (p : List Char) :
    (∀ c ∈ p, c ≠ '%' ∧ c ≠ '_' ∧ c ≠ '\\') →
    ∀ s : List Char, likeMatch (p ++ ['%']) s = true ↔ (p.map lchar) <+: (s.map lchar) := by
  induction p with
  | nil =>
    intro _ s
    simp [likeMatch_one_pct, List.nil_prefix]
  | cons a p ih =>
    intro hp s
    obtain ⟨h1, h3, h2⟩ := hp a (by simp)
    have hp2 : ∀ c ∈ p, c ≠ '%' ∧ c ≠ '_' ∧ c ≠ '\\' := fun c hc => hp c (by simp [hc])
    cases s with
    | nil =>
      rw [List.cons_append, likeMatch_plain_nil a (p ++ ['%']) h1]
      simp
    | cons d s =>
      rw [List.cons_append, likeMatch_plain_cons a (p ++ ['%']) d s h1 h2 h3,
        List.map_cons, List.map_cons, List.cons_prefix_cons, Bool.and_eq_true,
        beq_iff_eq, ih hp2 s]
      constructor
      · rintro ⟨hde, hpre⟩
        exact ⟨hde.symm, hpre⟩
      · rintro ⟨hde, hpre⟩
        exact ⟨hde.symm, hpre⟩

theorem likeMatch_pct_iff (ps s : List Char) :
    likeMatch ('%' :: ps) s = true ↔ ∃ t, t <:+ s ∧ likeMatch ps t = true := by
  rw [show likeMatch ('%' :: ps) s = s.tails.any (fun t => likeMatch ps t) from by
    rw [likeMatch.eq_def]
    simp]
  rw [List.any_eq_true]
  constructor
  · rintro ⟨t, ht, hlm⟩
    exact ⟨t, (List.mem_tails _ _).mp ht, hlm⟩
  · rintro ⟨t, ht, hlm⟩
    exact ⟨t, (List.mem_tails _ _).mpr ht, hlm⟩

theorem suffix_map_pullback (T : List Char) (s : List Char) (h : T <:+ s.map lchar) :
    ∃ t, t <:+ s ∧ t.map lchar = T := by
  rw [List.suffix_iff_eq_drop] at h
  refine ⟨s.drop ((s.map lchar).length - T.length), List.drop_suffix _ _, ?_⟩
  rw [List.map_drop]
  exact h.symm

/-- For a search string without `LIKE` metacharacters, one `LIKE` disjunct
of the handler is exactly the case-insensitive substring test. -/
theorem likeField_eq_containsCI (search field : String) (h : noMeta search = true) :
    likeField search field = containsCI field search := by
  have hp : ∀ c ∈ search.data, c ≠ '%' ∧ c ≠ '_' ∧ c ≠ '\\' := by
    intro c hc
    have hh := h
    unfold noMeta at hh
    rw [List.all_eq_true] at hh
    have hc2 := hh c hc
    simp only [Bool.and_eq_true, Bool.not_eq_true', beq_eq_false_iff_ne] at hc2
    exact ⟨hc2.1.1, hc2.1.2, hc2.2⟩
  rw [Bool.eq_iff_iff]
  unfold likeField containsCI
  rw [decide_eq_true_iff, likeMatch_pct_iff]
  constructor
  · rintro ⟨t, hts, hlm⟩
    have hpre := (likeMatch_plain_pct search.data hp t).mp hlm
    exact List.infix_iff_prefix_suffix.mpr ⟨t.map lchar, hpre, List.IsSuffix.map lchar hts⟩
  · intro hinf
    obtain ⟨T, hTpre, hTsuf⟩ := List.infix_iff_prefix_suffix.mp hinf
    obtain ⟨t, hts, rfl⟩ := suffix_map_pullback T field.data hTsuf
    exact ⟨t, hts, (likeMatch_plain_pct search.data hp t).mpr hTpre⟩

theorem matchesSearch_eq_containsCI (search : String) (hmeta : noMeta search = true)
    (r : Txn) :
    matchesSearch search r =
      (containsCI r.title search || containsCI r.description search ||
        containsCI (priceString r.priceCents) search) := by
  unfold matchesSearch
  rw [likeField_eq_containsCI search r.title hmeta,
    likeField_eq_containsCI search r.description hmeta,
    likeField_eq_containsCI search (priceString r.priceCents) hmeta]

theorem filteredRecords_of_active (store : List Txn) (monthNum : Nat)
    (search : String) (hact : searchActive search = true)
    (hmeta : noMeta search = true) :
    filteredRecords store monthNum search = (monthRecords store monthNum).filter
      (fun r => containsCI r.title search || containsCI r.description search ||
        containsCI (priceString r.priceCents) search) := by
  unfold filteredRecords
  rw [if_pos hact]
  exact List.filter_congr (fun r _ => matchesSearch_eq_containsCI search hmeta r)

/-! ### C8 — the search filter -/

/-- C8 counterexample: the search string `"_"` is non-empty after trimming,
and the listing keeps the March row whose searchable renderings are
`"ab"`, `"cd"`, `"50.00"` — none of which contains `"_"` as a substring
(case-insensitively or otherwise): `LIKE` treats `_` as a wildcard, so
the kept set is not characterized by substring containment. -/
theorem c8_wildcard_not_substring :
    listTransactions [plainRow] (some "March") "_" 1 none = Except.ok
      { transactions := [plainRow], total := 1, page := 1, perPage := 1, totalPages := 1 } ∧
    containsCI plainRow.title "_" = false ∧
    containsCI plainRow.description "_" = false ∧
    containsCI (priceString plainRow.priceCents) "_" = false := by
  decide

/-- C8 (amended): for every valid month and every search string that is
non-empty after trimming and contains none of the `LIKE`
metacharacters `%`, `_`, `\`, the listing keeps exactly those
month-matching records whose title, description, or price rendering
contains the search string as a case-insensitive substring (three-way
OR).  Strings containing metacharacters are instead interpreted as
`LIKE` wildcard patterns. -/
theorem c8_search_is_ci_substring_or (store : List Txn) (m : String)
    (search : String) (hm : m ∈ months) (hact : searchActive search = true)
    (hmeta : noMeta search = true) :
    ∃ res, listTransactions store (some m) search 1 none = Except.ok res ∧
      res.transactions = (monthRecords store (months.indexOf m + 1)).filter
        (fun r => containsCI r.title search || containsCI r.description search ||
          containsCI (priceString r.priceCents) search) := by
  refine ⟨_, listTransactions_valid_none store m search 1 hm, ?_⟩
  exact filteredRecords_of_active store (months.indexOf m + 1) search hact hmeta

/-- Witness for C8's amended statement with the mixed-case search
`"sHiRt"` on a two-row March store. -/
theorem c8_search_is_ci_substring_or_witness :
    "March" ∈ months ∧ searchActive "sHiRt" = true ∧ noMeta "sHiRt" = true ∧
    (∃ res, listTransactions [marchSold, marchUnsold] (some "March") "sHiRt" 1 none
        = Except.ok res ∧
      res.transactions =
        (monthRecords [marchSold, marchUnsold] (months.indexOf "March" + 1)).filter
          (fun r => containsCI r.title "sHiRt" || containsCI r.description "sHiRt" ||
            containsCI (priceString r.priceCents) "sHiRt")) :=
  ⟨by decide, by decide, by decide,
    c8_search_is_ci_substring_or [marchSold, marchUnsold] "March" "sHiRt"
      (by decide) (by decide) (by decide)⟩

/-! ### C10 — trimming only gates the search filter -/

/-- C10: for a search string with surrounding whitespace that is non-empty
after trimming (and without `LIKE` metacharacters), the listing filters
with the ORIGINAL untrimmed string as the substring pattern — trimming
only decides whether the filter is active — so `" x"` requires the
space-bearing occurrence `" x"`, not a bare `"x"`. -/
theorem c10_search_untrimmed (store : List Txn) (m : String) (search : String)
    (hm : m ∈ months) (hact : searchActive search = true)
    (hmeta : noMeta search = true) :
    ∃ res, listTransactions store (some m) search 1 none = Except.ok res ∧
      ∀ r, r ∈ res.transactions ↔
        r ∈ monthRecords store (months.indexOf m + 1) ∧
          (containsCI r.title search = true ∨ containsCI r.description search = true ∨
            containsCI (priceString r.priceCents) search = true) := by
  refine ⟨_, listTransactions_valid_none store m search 1 hm, ?_⟩
  intro r
  show r ∈ filteredRecords store (months.indexOf m + 1) search ↔ _
  rw [filteredRecords_of_active store (months.indexOf m + 1) search hact hmeta,
    List.mem_filter]
  simp [Bool.or_eq_true, or_assoc]

/-- Witness for C10 with the search `" x"` on a March store holding one
row whose title contains `" x"` and one whose title contains only
`"x"`: only the former satisfies the untrimmed substring test. -/
theorem c10_search_untrimmed_witness :
    "March" ∈ months ∧ searchActive " x" = true ∧ noMeta " x" = true ∧
    containsCI spacedTitle.title " x" = true ∧
    containsCI unspacedTitle.title " x" = false ∧
    (∃ res, listTransactions [spacedTitle, unspacedTitle] (some "March") " x" 1 none
        = Except.ok res ∧
      ∀ r, r ∈ res.transactions ↔
        r ∈ monthRecords [spacedTitle, unspacedTitle] (months.indexOf "March" + 1) ∧
          (containsCI r.title " x" = true ∨ containsCI r.description " x" = true ∨
            containsCI (priceString r.priceCents) " x" = true)) :=
  ⟨by decide, by decide, by decide, by decide, by decide,
    c10_search_untrimmed [spacedTitle, unspacedTitle] "March" " x"
      (by decide) (by decide) (by decide)⟩

end Roxiler
